import Mathlib

/-!
Shallow embedding of the py5generator excerpt:
- `py5/mixins/image.py`: the weak-reference image cache
  (`_check_cache_or_convert`, `_check_cache`, `_store_cache`,
  `flush_image_cache`),
- `py5_tools/magics/drawing.py`: the `_run_sketch` driver control flow,
- `py5/mixins/data.py`: `load_json`.

Object identities are modelled as natural numbers; `0` is reserved for the
identity of Python's `None` singleton, so a dereferenced expired weak
reference yields `0`.  Liveness of referents is an environment
`Live : ObjId → Bool`, fixed during a single call (the code is
single-threaded and no reference is dropped inside one scan).
-/

set_option linter.unusedVariables false

namespace Py5

/-! ## Image cache model (`py5/mixins/image.py`) -/

/-- A Python object identity.  `0` stands for the identity of `None`. -/
abbrev ObjId := Nat

/-- The identity of Python's `None` singleton. -/
def noneId : ObjId := 0

/-- Which referents currently have live (strong) references. -/
abbrev Live := ObjId → Bool

/-- A cache entry `(ref, pimage)`: the referent identity held by the weak
reference, and the identity of the converted renderer-native image. -/
abbrev Entry := ObjId × ObjId

/-- The mixin's `_weak_image_refs` list, in insertion order (newest last). -/
abbrev Cache := List Entry

/-- The argument passed to `_check_cache_or_convert`: either a plain object
or a tuple whose first element is the actual image object (the remaining
tuple elements are extra positional arguments). -/
inductive PyInput where
  | obj (i : ObjId)
  | tup (first : ObjId) (rest : List ObjId)

/-- The key normalization shared by `_check_cache` and `_store_cache`:
`if isinstance(image, tuple): image = image[0]`. -/
def normalizeKey : PyInput → ObjId
  | .obj i => i
  | .tup f _ => f

/-- The loop of `_check_cache`, acting on the entry list in reverse order
(the head of the argument is the most recently appended entry).  It returns
the surviving reversed list together with the optional cached image.

Faithful to the source loop
`for ref, pimage in reversed(...): if ref() is None: remove(...); if image is ref(): return pimage`:
an expired entry is removed, and — because the second test is not an
`elif` — it still *matches* when the lookup key is `None` (identity
`noneId`), since the expired reference dereferences to `None`.
Removing the entry currently yielded by the reversed iterator is exact for
`list.remove` whenever no two entries share a referent identity, which
holds for every cache reachable from the empty one (see the invariant
theorems below). -/
def scanRev (L : Live) (key : ObjId) : List Entry → List Entry × Option ObjId
  | [] => ([], none)
  | e :: rest =>
      if L e.1 then
        if key = e.1 then (e :: rest, some e.2)
        else (e :: (scanRev L key rest).1, (scanRev L key rest).2)
      else
        if key = noneId then (rest, some e.2)
        else scanRev L key rest

/-- `ImageMixin._check_cache`: normalize the key, scan the list in reverse,
removing expired entries lazily; return the surviving list (in insertion
order) and the cached image, if any. -/
def checkCache (L : Live) (input : PyInput) (c : Cache) : Cache × Option ObjId :=
  ((scanRev L (normalizeKey input) c.reverse).1.reverse,
   (scanRev L (normalizeKey input) c.reverse).2)

/-- `ImageMixin._store_cache`: normalize the key and append a new
`(weakref.ref(image), pimage)` entry.  `weakref.ref(None)` raises
`TypeError`, so nothing is ever appended for the `None` identity (the list
is left unchanged while the error propagates). -/
def storeCache (input : PyInput) (pimage : ObjId) (c : Cache) : Cache :=
  if normalizeKey input = noneId then c else c ++ [(normalizeKey input, pimage)]

/-- The observable outcome of one `_check_cache_or_convert` call. -/
structure ResolveResult where
  pimage : ObjId
  newCache : Cache
  converted : Bool
  deriving DecidableEq, Repr

/-- `ImageMixin._check_cache_or_convert`: with caching, look up first and
convert plus store only on a miss; without caching, always convert and
leave the list untouched.  `conv` is the external
`Converter.to_pimage`, which receives the *original* (un-normalized)
argument; `converted` records whether it was invoked. -/
def checkCacheOrConvert (conv : PyInput → ObjId) (L : Live) (input : PyInput)
    (cache : Bool) (c : Cache) : ResolveResult :=
  if cache then
    match (checkCache L input c).2 with
    | some p => ⟨p, (checkCache L input c).1, false⟩
    | none =>
        ⟨conv input, storeCache input (conv input) (checkCache L input c).1, true⟩
  else ⟨conv input, c, true⟩

/-- `ImageMixin.flush_image_cache`: discard the whole list. -/
def flushImageCache : Cache := []

/-- The cache state after `n` further `_check_cache_or_convert (cache=True)`
calls with the same input under the same liveness environment. -/
def cacheIter (conv : PyInput → ObjId) (L : Live) (input : PyInput)
    (c : Cache) : Nat → Cache
  | 0 => c
  | n + 1 => (checkCacheOrConvert conv L input true (cacheIter conv L input c n)).newCache

/-- The scan as the specification sentence describes it: expired entries
encountered are removed and never match; the first entry whose *referent*
is identical to the lookup key terminates the scan and its image is
returned.  (Differs from `scanRev` only for the `None` lookup key.) -/
def scanRevSpec (L : Live) (key : ObjId) : List Entry → List Entry × Option ObjId
  | [] => ([], none)
  | e :: rest =>
      if L e.1 then
        if key = e.1 then (e :: rest, some e.2)
        else (e :: (scanRevSpec L key rest).1, (scanRevSpec L key rest).2)
      else scanRevSpec L key rest

/-- `checkCache` as described by the specification's lookup sentences. -/
def checkCacheSpec (L : Live) (input : PyInput) (c : Cache) : Cache × Option ObjId :=
  ((scanRevSpec L (normalizeKey input) c.reverse).1.reverse,
   (scanRevSpec L (normalizeKey input) c.reverse).2)

/-- One operation on the mixin's cache state: a `_check_cache_or_convert`
call (with its own converter, liveness environment, argument and `cache`
flag) or a `flush_image_cache` call. -/
inductive CacheOp where
  | resolve (conv : PyInput → ObjId) (L : Live) (input : PyInput) (useCache : Bool)
  | flush

/-- Effect of one operation on the entry list. -/
def applyOp (c : Cache) : CacheOp → Cache
  | .resolve conv L input useCache => (checkCacheOrConvert conv L input useCache c).newCache
  | .flush => flushImageCache

/-- The cache after a sequence of operations starting from the empty cache
of a fresh `ImageMixin`. -/
def runOps (ops : List CacheOp) : Cache := ops.foldl applyOp []

/-! ## Sketch-capture driver (`py5_tools/magics/drawing.py`, `_run_sketch`) -/

/-- The caller's namespace (`user_ns`), modelled by which names it binds. -/
abbrev NS := String → Bool

/-- Binding a name in a namespace (`user_ns[k] = ...`). -/
def nsInsert (ns : NS) (k : String) : NS := fun s => if s = k then true else ns s

/-- Deleting a name from a namespace (`del user_ns[k]`, key present). -/
def nsErase (ns : NS) (k : String) : NS := fun s => if s = k then false else ns s

/-- The implementation-internal name installed in unsafe mode. -/
def py5UserNsKey : String := "_py5_user_ns"

/-- The message printed when a sketch is already running. -/
def alreadyRunningMsg : String :=
  "You must exit the currently running sketch before running another sketch."

/-- Outcome of executing the generated script (`exec(_CODE_FRAMEWORK...)`
together with the blocking run): either it completes, with the contents of
the output file if the sketch wrote one, or it raises. -/
inductive ExecOutcome where
  | completed (output : Option String)
  | raised

/-- The template selection at the top of `_run_sketch`: output file suffix
and read mode chosen from the renderer name (`SVG`, `PDF`, `DXF`, default
raster/PNG). -/
structure TemplateSel where
  suffix : String
  readBinary : Bool
  deriving DecidableEq, Repr

/-- The renderer dispatch of `_run_sketch` lines 90-105. -/
def selectTemplate (renderer : String) : TemplateSel :=
  if renderer = "SVG" then ⟨".svg", false⟩
  else if renderer = "PDF" then ⟨".pdf", true⟩
  else if renderer = "DXF" then ⟨".dxf", false⟩
  else ⟨".png", true⟩

/-- Everything observable about one `_run_sketch` call: the returned value
(`none` both for the abort path and for "no output file"), the caller's
namespace when control returns, whether an exception propagates to the
caller, what was printed, whether the generated script was executed, and
whether the temporary directory was created / still exists afterwards. -/
structure RunResult where
  result : Option String
  finalNs : NS
  raised : Bool
  printed : Option String
  execCalled : Bool
  tempdirCreated : Bool
  tempdirFinal : Bool
  outputSuffix : String

/-- Control-flow embedding of `_run_sketch renderer code width height
user_ns safe_exec`.  The behavior of the generated script (which runs
inside the caller's namespace and may add or remove arbitrary names,
write the output file, or raise) is the parameter `ex`.

Mirrors the source order: template selection; the `py5.is_running` abort
check (print + `return None`); in unsafe mode, installation of the
`_py5_user_ns` self-binding; the `with tempfile.TemporaryDirectory()`
block around script generation, execution and output reading (the context
manager removes the directory on both the normal and the raising exit);
after the block, `if not safe_exec: del user_ns[...]` — which is skipped
when execution raised, and which itself raises `KeyError` when the
executed code removed the binding. -/
def runSketch (renderer code : String) (width height : Nat)
    (isRunning safeExec : Bool) (ns : NS) (ex : NS → NS × ExecOutcome) :
    RunResult :=
  let sel := selectTemplate renderer
  if isRunning then
    ⟨none, ns, false, some alreadyRunningMsg, false, false, false, sel.suffix⟩
  else
    let ns1 := if safeExec then ns else nsInsert ns py5UserNsKey
    match (ex ns1).2 with
    | ExecOutcome.raised =>
        ⟨none, (ex ns1).1, true, none, true, true, false, sel.suffix⟩
    | ExecOutcome.completed output =>
        if safeExec then
          ⟨output, (ex ns1).1, false, none, true, true, false, sel.suffix⟩
        else if (ex ns1).1 py5UserNsKey then
          ⟨output, nsErase ((ex ns1).1) py5UserNsKey, false, none, true, true, false,
           sel.suffix⟩
        else
          ⟨none, (ex ns1).1, true, none, true, true, false, sel.suffix⟩

/-- The guard each magic command applies to `_run_sketch`'s return value
(`if pdf:` / `if dxf:` / `if svg:` / `if png:`): post-processing happens
only for a truthy (non-`None`, non-empty) result. -/
def magicPostProcesses (r : Option String) : Bool :=
  match r with
  | none => false
  | some s => !(s == "")

/-! ## JSON loading (`py5/mixins/data.py`, `DataMixin.load_json`) -/

/-- An HTTP response as `load_json` consumes it: status code, reason
phrase, and the parsed JSON body (`response.json()`). -/
structure HttpResponse (α : Type) where
  status : Nat
  reason : String
  jsonBody : α

/-- The URL test `re.match(r'https?://', filename)` on a string source:
the string starts with `http://` or `https://` (match anchored at the
start, over the character sequence). -/
def isUrlSource (s : String) : Bool :=
  "http://".data.isPrefixOf s.data || "https://".data.isPrefixOf s.data

/-- Path join (`pathlib`'s `/` on the paths appearing here). -/
def pathJoin (a b : String) : String := a ++ "/" ++ b

/-- `Path.is_absolute` for the string paths of this model: the path starts
with the separator. -/
def isAbsolutePath (s : String) : Bool := "/".data.isPrefixOf s.data

/-- `DataMixin.load_json` over a string source.  `net` is the HTTP client
(`requests.get`), `fs` maps a path to the contents of an existing file
(`exists()` is `(fs p).isSome`), `cwd` is `self.sketch_path()` and `parse`
is `json.load` on file contents.  Errors are the raised `RuntimeError`
messages. -/
def loadJson {α : Type} (net : String → HttpResponse α) (fs : String → Option String)
    (cwd : String) (parse : String → α) (source : String) : Except String α :=
  if isUrlSource source then
    if (net source).status = 200 then Except.ok (net source).jsonBody
    else Except.error ("Unable to download JSON URL: " ++ (net source).reason)
  else
    let path :=
      if isAbsolutePath source then source
      else if (fs (pathJoin (pathJoin cwd "data") source)).isSome then
        pathJoin (pathJoin cwd "data") source
      else pathJoin cwd source
    match fs path with
    | some contents => Except.ok (parse contents)
    | none => Except.error ("Unable to find JSON file " ++ source)

/-! ## Lemmas about the cache scan -/

/-- The surviving list of a scan is a sublist of the scanned one: the loop
only removes entries. -/
theorem scanRev_fst_sublist (L : Live) (key : ObjId) :
    ∀ l : List Entry, (scanRev L key l).1.Sublist l := by
  intro l
  induction l with
  | nil => simp [scanRev]
  | cons e rest ih =>
      by_cases hL : L e.1
      · by_cases hk : key = e.1
        · simp [scanRev, hL, hk]
        · simpa [scanRev, hL, hk] using ih.cons₂ e
      · by_cases h0 : key = noneId
        · simp [scanRev, hL, h0]
        · simpa [scanRev, hL, h0] using ih.cons e

/-- With a non-`None` lookup key, a hit leaves the scanned list unchanged,
and rescanning reproduces the same answer: the scan stops at the found
entry and everything behind it was kept or already removed. -/
theorem scanRev_hit_idem (L : Live) (key : ObjId) (h0 : key ≠ noneId) :
    ∀ l l' : List Entry, ∀ p : ObjId,
      scanRev L key l = (l', some p) → scanRev L key l' = (l', some p) := by
  intro l
  induction l with
  | nil => intro l' p h; simp [scanRev] at h
  | cons e rest ih =>
      intro l' p h
      by_cases hL : L e.1
      · by_cases hk : key = e.1
        · simp [scanRev, hL, hk] at h
          obtain ⟨h1, h2⟩ := h
          subst h1
          simp [scanRev, hL, hk, h2]
        · simp [scanRev, hL, hk] at h
          obtain ⟨h1, h2⟩ := h
          have hrest : scanRev L key rest = ((scanRev L key rest).1, some p) :=
            Prod.ext rfl h2
          have := ih (scanRev L key rest).1 p hrest
          subst h1
          simp [scanRev, hL, hk, this]
      · simp [scanRev, hL, h0] at h
        exact ih l' p h

/-- With a non-`None` lookup key whose referent is dead, the scan misses
and removes exactly the expired entries. -/
theorem scanRev_dead_key (L : Live) (key : ObjId) (h0 : key ≠ noneId)
    (hdead : L key = false) :
    ∀ l : List Entry,
      scanRev L key l = (l.filter (fun e => L e.1), none) := by
  intro l
  induction l with
  | nil => simp [scanRev]
  | cons e rest ih =>
      by_cases hL : L e.1
      · have hk : key ≠ e.1 := by
          intro h; rw [h] at hdead; rw [hdead] at hL; exact Bool.false_ne_true hL
        simp [scanRev, hL, hk, ih, List.filter_cons]
      · simp [scanRev, hL, h0, ih, List.filter_cons]

/-- A miss with a non-`None` key means no surviving entry holds that key:
the scan traversed the whole list and a live entry with this referent
would have produced a hit. -/
theorem scanRev_miss_key_not_mem (L : Live) (key : ObjId) (h0 : key ≠ noneId) :
    ∀ l : List Entry, (scanRev L key l).2 = none →
      ∀ p : ObjId, (key, p) ∉ (scanRev L key l).1 := by
  intro l
  induction l with
  | nil => intro _; simp [scanRev]
  | cons e rest ih =>
      intro hmiss p
      by_cases hL : L e.1
      · by_cases hk : key = e.1
        · simp [scanRev, hL, hk] at hmiss
        · simp [scanRev, hL, hk] at hmiss ⊢
          refine ⟨fun h => hk (by rw [← h]), ih hmiss p⟩
      · simp [scanRev, hL, h0] at hmiss ⊢
        exact ih hmiss p

/-- After a cached resolve of a live, non-`None` key, looking the same key
up again hits: it returns the image the resolve produced and leaves the
list unchanged. -/
theorem resolve_hit_after (conv : PyInput → ObjId) (L : Live) (input : PyInput)
    (c : Cache) (h0 : normalizeKey input ≠ noneId)
    (hlive : L (normalizeKey input) = true) :
    checkCache L input ((checkCacheOrConvert conv L input true c).newCache) =
      ((checkCacheOrConvert conv L input true c).newCache,
        some (checkCacheOrConvert conv L input true c).pimage) := by
  rcases hr : (scanRev L (normalizeKey input) c.reverse).2 with _ | p
  · have hcc : checkCacheOrConvert conv L input true c =
        ⟨conv input,
          (scanRev L (normalizeKey input) c.reverse).1.reverse ++
            [(normalizeKey input, conv input)], true⟩ := by
      simp [checkCacheOrConvert, checkCache, storeCache, hr, h0]
    rw [hcc]
    simp [checkCache, scanRev, hlive, List.reverse_append, List.reverse_reverse,
      List.reverse_cons]
  · have hs : scanRev L (normalizeKey input) c.reverse =
        ((scanRev L (normalizeKey input) c.reverse).1, some p) := by rw [← hr]
    have hidem := scanRev_hit_idem L (normalizeKey input) h0 _ _ _ hs
    have hcc : checkCacheOrConvert conv L input true c =
        ⟨p, (scanRev L (normalizeKey input) c.reverse).1.reverse, false⟩ := by
      simp [checkCacheOrConvert, checkCache, hr]
    rw [hcc]
    simp [checkCache, List.reverse_reverse, hidem]

/-- A cached resolve on a state the lookup hits returns the cached image,
does not convert, and leaves the list unchanged. -/
theorem checkCacheOrConvert_of_hit (conv : PyInput → ObjId) (L : Live)
    (input : PyInput) (c : Cache) (p : ObjId)
    (h : checkCache L input c = (c, some p)) :
    checkCacheOrConvert conv L input true c = ⟨p, c, false⟩ := by
  unfold checkCacheOrConvert
  rw [h]
  rfl

/-- A cached resolve right after a cached resolve whose argument has the
same normalized key (a live, non-`None` identity) is a hit: same image,
no conversion, list unchanged. -/
theorem resolve_again_hits (conv : PyInput → ObjId) (L : Live)
    (input₁ input₂ : PyInput) (c : Cache)
    (hk : normalizeKey input₂ = normalizeKey input₁)
    (h0 : normalizeKey input₁ ≠ noneId)
    (hlive : L (normalizeKey input₁) = true) :
    checkCacheOrConvert conv L input₂ true
        ((checkCacheOrConvert conv L input₁ true c).newCache) =
      ⟨(checkCacheOrConvert conv L input₁ true c).pimage,
        (checkCacheOrConvert conv L input₁ true c).newCache, false⟩ := by
  have h := resolve_hit_after conv L input₁ c h0 hlive
  have h2 : checkCache L input₂ ((checkCacheOrConvert conv L input₁ true c).newCache) =
      ((checkCacheOrConvert conv L input₁ true c).newCache,
        some (checkCacheOrConvert conv L input₁ true c).pimage) := by
    simpa [checkCache, hk] using h
  exact checkCacheOrConvert_of_hit conv L input₂ _ _ h2

/-- Every repeated cached resolve after the first hits the cache and leaves
it unchanged. -/
theorem resolve_iter_stable (conv : PyInput → ObjId) (L : Live) (input : PyInput)
    (c : Cache) (h0 : normalizeKey input ≠ noneId)
    (hlive : L (normalizeKey input) = true) :
    ∀ n : Nat, checkCacheOrConvert conv L input true
        (cacheIter conv L input c (n + 1)) =
      ⟨(checkCacheOrConvert conv L input true c).pimage,
        cacheIter conv L input c (n + 1), false⟩ := by
  intro n
  induction n with
  | zero =>
      have h := resolve_again_hits conv L input input c rfl h0 hlive
      simpa [cacheIter] using h
  | succ m ih =>
      have hstate : cacheIter conv L input c (m + 2) = cacheIter conv L input c (m + 1) := by
        show (checkCacheOrConvert conv L input true
            (cacheIter conv L input c (m + 1))).newCache = _
        rw [ih]
      rw [hstate]
      exact ih

/-- C1: for a source object with a live, non-`None` identity, after a first
cached resolve, every subsequent cached resolve of the same identity
returns the first call's image without invoking the converter again; once
the identity is no longer live, the next cached lookup scan evicts its
entry and a fresh conversion occurs (every entry for this identity in the
resulting list carries the freshly converted image).  The `Nodup`
hypothesis scopes the statement to cache states reachable from a fresh
mixin, where the embedding of the removal loop is exact. -/
theorem resolve_cached_stable_then_evicted
    (conv : PyInput → ObjId) (L Lx : Live) (input : PyInput) (c : Cache)
    (h0 : normalizeKey input ≠ noneId)
    (hlive : L (normalizeKey input) = true)
    (hnodup : (c.map Prod.fst).Nodup)
    (hdead : Lx (normalizeKey input) = false) :
    (∀ n : Nat, 1 ≤ n →
      (checkCacheOrConvert conv L input true (cacheIter conv L input c n)).pimage =
          (checkCacheOrConvert conv L input true c).pimage ∧
        (checkCacheOrConvert conv L input true (cacheIter conv L input c n)).converted
          = false) ∧
    (checkCacheOrConvert conv Lx input true (cacheIter conv L input c 1)).converted
        = true ∧
    (checkCacheOrConvert conv Lx input true (cacheIter conv L input c 1)).pimage
        = conv input ∧
    ∀ p : ObjId, (normalizeKey input, p) ∈
        (checkCacheOrConvert conv Lx input true (cacheIter conv L input c 1)).newCache →
      p = conv input := by
  have hscan := scanRev_dead_key Lx (normalizeKey input) h0 hdead
    (cacheIter conv L input c 1).reverse
  have hcc : checkCacheOrConvert conv Lx input true (cacheIter conv L input c 1) =
      ⟨conv input,
        ((cacheIter conv L input c 1).reverse.filter (fun e => Lx e.1)).reverse ++
          [(normalizeKey input, conv input)], true⟩ := by
    simp [checkCacheOrConvert, checkCache, storeCache, hscan, h0]
  refine ⟨?_, ?_, ?_, ?_⟩
  · intro n hn
    obtain ⟨m, rfl⟩ : ∃ m, n = m + 1 := ⟨n - 1, (Nat.succ_pred_eq_of_pos hn).symm⟩
    rw [resolve_iter_stable conv L input c h0 hlive m]
    exact ⟨rfl, rfl⟩
  · rw [hcc]
  · rw [hcc]
  · intro p hp
    rw [hcc] at hp
    simp only [List.mem_append, List.mem_reverse, List.mem_filter,
      List.mem_singleton] at hp
    rcases hp with ⟨_, hLx⟩ | hp
    · rw [hdead] at hLx
      exact absurd hLx (by simp)
    · exact (Prod.mk.injEq _ _ _ _).mp hp |>.2

/-- Witness for C1 at a concrete converter, liveness environments, source
object and empty initial cache. -/
theorem resolve_cached_stable_then_evicted_witness :
    normalizeKey (PyInput.obj 5) ≠ noneId ∧
    (fun i : ObjId => decide (i = 5)) (normalizeKey (PyInput.obj 5)) = true ∧
    (([] : Cache).map Prod.fst).Nodup ∧
    (fun _ : ObjId => false) (normalizeKey (PyInput.obj 5)) = false ∧
    ((∀ n : Nat, 1 ≤ n →
      (checkCacheOrConvert (fun _ => 42) (fun i => decide (i = 5)) (PyInput.obj 5) true
          (cacheIter (fun _ => 42) (fun i => decide (i = 5)) (PyInput.obj 5) [] n)).pimage =
          (checkCacheOrConvert (fun _ => 42) (fun i => decide (i = 5)) (PyInput.obj 5) true
            []).pimage ∧
        (checkCacheOrConvert (fun _ => 42) (fun i => decide (i = 5)) (PyInput.obj 5) true
          (cacheIter (fun _ => 42) (fun i => decide (i = 5)) (PyInput.obj 5) [] n)).converted
          = false) ∧
    (checkCacheOrConvert (fun _ => 42) (fun _ => false) (PyInput.obj 5) true
        (cacheIter (fun _ => 42) (fun i => decide (i = 5)) (PyInput.obj 5) [] 1)).converted
        = true ∧
    (checkCacheOrConvert (fun _ => 42) (fun _ => false) (PyInput.obj 5) true
        (cacheIter (fun _ => 42) (fun i => decide (i = 5)) (PyInput.obj 5) [] 1)).pimage
        = (fun _ : PyInput => 42) (PyInput.obj 5) ∧
    ∀ p : ObjId, (normalizeKey (PyInput.obj 5), p) ∈
        (checkCacheOrConvert (fun _ => 42) (fun _ => false) (PyInput.obj 5) true
          (cacheIter (fun _ => 42) (fun i => decide (i = 5)) (PyInput.obj 5) [] 1)).newCache →
      p = (fun _ : PyInput => 42) (PyInput.obj 5)) :=
  ⟨by decide, by decide, by decide, by decide,
    resolve_cached_stable_then_evicted (fun _ => 42) (fun i => decide (i = 5))
      (fun _ => false) (PyInput.obj 5) [] (by decide) (by decide) (by decide) (by decide)⟩

/-- C2 counterexample: with the `None` lookup key (identity `noneId`) and a
single expired entry, the lookup returns that entry's stale converted
image — because the match test in the loop is not an `elif`, the expired
reference dereferences to `None` and compares identical to the key — while
the claimed scan (remove expired entries, match only a live identical
referent) returns nothing. -/
theorem checkCache_none_key_counterexample :
    checkCache (fun _ => false) (PyInput.obj noneId) [(5, 7)] = ([], some 7) ∧
    checkCacheSpec (fun _ => false) (PyInput.obj noneId) [(5, 7)] = ([], none) := by
  constructor <;> rfl

/-- C2 (amended): for every liveness environment, every cache state with
pairwise-distinct referent identities (the states reachable from a fresh
mixin) and every lookup key other than `None`, `_check_cache` behaves
exactly as claimed: it scans in reverse order, removes every expired entry
it encounters (also when a match is found later in the scan), and the
first entry whose referent is identical to the key terminates the scan
with its cached image, so the most recently appended entry wins. -/
theorem checkCache_eq_claimed_scan (L : Live) (input : PyInput) (c : Cache)
    (h0 : normalizeKey input ≠ noneId)
    (hnodup : (c.map Prod.fst).Nodup) :
    checkCache L input c = checkCacheSpec L input c := by
  have hrev : ∀ l : List Entry,
      scanRev L (normalizeKey input) l = scanRevSpec L (normalizeKey input) l := by
    intro l
    induction l with
    | nil => rfl
    | cons e rest ih =>
        by_cases hL : L e.1
        · by_cases hk : normalizeKey input = e.1
          · simp [scanRev, scanRevSpec, hL, hk]
          · simp [scanRev, scanRevSpec, hL, hk, ih]
        · simp [scanRev, scanRevSpec, hL, h0, ih]
  simp [checkCache, checkCacheSpec, hrev]

/-- Witness for the amended C2 at a concrete cache state and key. -/
theorem checkCache_eq_claimed_scan_witness :
    normalizeKey (PyInput.obj 3) ≠ noneId ∧
    (([(3, 9), (4, 11)] : Cache).map Prod.fst).Nodup ∧
    checkCache (fun i => decide (i = 3)) (PyInput.obj 3) [(3, 9), (4, 11)] =
      checkCacheSpec (fun i => decide (i = 3)) (PyInput.obj 3) [(3, 9), (4, 11)] :=
  ⟨by decide, by decide,
    checkCache_eq_claimed_scan (fun i => decide (i = 3)) (PyInput.obj 3)
      [(3, 9), (4, 11)] (by decide) (by decide)⟩

/-- C3: a cached resolve of a tuple `(x, extra...)` followed by a cached
resolve of `(x, other...)` hits the same cache entry: only the first tuple
element enters the identity comparison and the stored weak reference, so
the second call returns the image stored by the first without invoking the
converter again.  `x` is a live, non-`None` identity; the `Nodup`
hypothesis scopes the statement to reachable cache states. -/
theorem resolve_tuple_first_element_shares_entry
    (conv : PyInput → ObjId) (L : Live) (x : ObjId) (extra other : List ObjId)
    (c : Cache) (h0 : x ≠ noneId) (hlive : L x = true)
    (hnodup : (c.map Prod.fst).Nodup) :
    (checkCacheOrConvert conv L (PyInput.tup x other) true
        ((checkCacheOrConvert conv L (PyInput.tup x extra) true c).newCache)).pimage =
      (checkCacheOrConvert conv L (PyInput.tup x extra) true c).pimage ∧
    (checkCacheOrConvert conv L (PyInput.tup x other) true
        ((checkCacheOrConvert conv L (PyInput.tup x extra) true c).newCache)).converted
      = false := by
  have h := resolve_again_hits conv L (PyInput.tup x extra) (PyInput.tup x other) c
    rfl h0 hlive
  rw [h]
  exact ⟨rfl, rfl⟩

/-- Witness for C3 at a concrete converter, object and extra arguments. -/
theorem resolve_tuple_first_element_shares_entry_witness :
    (5 : ObjId) ≠ noneId ∧
    (fun i : ObjId => decide (i = 5)) 5 = true ∧
    (([] : Cache).map Prod.fst).Nodup ∧
    ((checkCacheOrConvert (fun _ => 42) (fun i => decide (i = 5))
        (PyInput.tup 5 [8]) true
        ((checkCacheOrConvert (fun _ => 42) (fun i => decide (i = 5))
          (PyInput.tup 5 [1, 2]) true []).newCache)).pimage =
      (checkCacheOrConvert (fun _ => 42) (fun i => decide (i = 5))
        (PyInput.tup 5 [1, 2]) true []).pimage ∧
    (checkCacheOrConvert (fun _ => 42) (fun i => decide (i = 5))
        (PyInput.tup 5 [8]) true
        ((checkCacheOrConvert (fun _ => 42) (fun i => decide (i = 5))
          (PyInput.tup 5 [1, 2]) true []).newCache)).converted = false) :=
  ⟨by decide, by decide, by decide,
    resolve_tuple_first_element_shares_entry (fun _ => 42) (fun i => decide (i = 5))
      5 [1, 2] [8] [] (by decide) (by decide) (by decide)⟩

/-- One cache operation preserves distinctness of the referent identities
in the entry list. -/
theorem keys_nodup_applyOp (c : Cache) (op : CacheOp)
    (h : (c.map Prod.fst).Nodup) : ((applyOp c op).map Prod.fst).Nodup := by
  cases op with
  | flush => simp [applyOp, flushImageCache]
  | resolve conv L input useCache =>
      cases useCache with
      | false => simpa [applyOp, checkCacheOrConvert] using h
      | true =>
          have hsub : ((scanRev L (normalizeKey input) c.reverse).1.reverse.map
              Prod.fst).Sublist (c.map Prod.fst) := by
            have h1 := scanRev_fst_sublist L (normalizeKey input) c.reverse
            have h2 := h1.reverse
            rw [List.reverse_reverse] at h2
            exact h2.map Prod.fst
          have hkept : ((scanRev L (normalizeKey input) c.reverse).1.reverse.map
              Prod.fst).Nodup := h.sublist hsub
          rcases hr : (scanRev L (normalizeKey input) c.reverse).2 with _ | p
          · have hnew : applyOp c (CacheOp.resolve conv L input true) =
                storeCache input (conv input)
                  (scanRev L (normalizeKey input) c.reverse).1.reverse := by
              simp [applyOp, checkCacheOrConvert, checkCache, hr]
            rw [hnew]
            by_cases h0 : normalizeKey input = noneId
            · rw [storeCache, if_pos h0]
              exact hkept
            · have hnotmem := scanRev_miss_key_not_mem L (normalizeKey input) h0
                c.reverse hr
              have hfst : normalizeKey input ∉
                  ((scanRev L (normalizeKey input) c.reverse).1.reverse.map Prod.fst) := by
                intro hmem
                rw [List.mem_map] at hmem
                obtain ⟨e, he, hfe⟩ := hmem
                rw [List.mem_reverse] at he
                have hmem2 : (normalizeKey input, e.2) ∈
                    (scanRev L (normalizeKey input) c.reverse).1 := by
                  rw [← hfe] at he ⊢
                  simpa using he
                exact hnotmem e.2 hmem2
              rw [storeCache, if_neg h0]
              simp only [List.map_append, List.map_cons, List.map_nil]
              rw [List.nodup_append]
              refine ⟨hkept, List.nodup_singleton _, ?_⟩
              intro a ha hb
              simp only [List.mem_singleton] at hb
              subst hb
              exact hfst ha
          · have hnew : applyOp c (CacheOp.resolve conv L input true) =
                (scanRev L (normalizeKey input) c.reverse).1.reverse := by
              simp [applyOp, checkCacheOrConvert, checkCache, hr]
            rw [hnew]
            exact hkept

/-- After any operation sequence from the empty cache, referent identities
in the entry list are pairwise distinct. -/
theorem runOps_keys_nodup (ops : List CacheOp) : ((runOps ops).map Prod.fst).Nodup := by
  suffices h : ∀ c : Cache, (c.map Prod.fst).Nodup →
      ((ops.foldl applyOp c).map Prod.fst).Nodup by
    exact h [] (by simp)
  induction ops with
  | nil => intro c hc; simpa using hc
  | cons op rest ih =>
      intro c hc
      exact ih (applyOp c op) (keys_nodup_applyOp c op hc)

/-- A list with pairwise-distinct first components has at most one element
satisfying any predicate that pins the first component. -/
theorem countP_le_one_of_keys_nodup (L : Live) (i : ObjId) :
    ∀ l : Cache, (l.map Prod.fst).Nodup →
      l.countP (fun e => decide (e.1 = i) && L e.1) ≤ 1 := by
  intro l
  induction l with
  | nil => intro _; simp
  | cons e t ih =>
      intro h
      rw [List.map_cons, List.nodup_cons] at h
      obtain ⟨hnot, ht⟩ := h
      rw [List.countP_cons]
      by_cases hp : (decide (e.1 = i) && L e.1) = true
      · have hei : e.1 = i := of_decide_eq_true (Bool.and_elim_left hp)
        have hzero : t.countP (fun e => decide (e.1 = i) && L e.1) = 0 := by
          rw [List.countP_eq_zero]
          intro a ha hpa
          have hai : a.1 = i := of_decide_eq_true (Bool.and_elim_left hpa)
          exact hnot (by rw [hei, ← hai]; exact List.mem_map_of_mem Prod.fst ha)
        simp [hp, hzero]
      · simp only [hp, if_false]
        simpa using ih ht

/-- C4: starting from the empty cache of a fresh mixin, after any sequence
of cached-conversion and flush operations the entry list contains at most
one live entry per distinct source-object identity, and an entry is
appended only when the full lookup scan found no entry for that identity
(on a hit, the list after the call is exactly the scan's surviving list). -/
theorem cache_at_most_one_live_entry_per_identity (ops : List CacheOp)
    (L : Live) (i : ObjId) :
    (runOps ops).countP (fun e => decide (e.1 = i) && L e.1) ≤ 1 ∧
    ∀ (conv : PyInput → ObjId) (Lr : Live) (input : PyInput) (c : Cache) (p : ObjId),
      (checkCache Lr input c).2 = some p →
        (checkCacheOrConvert conv Lr input true c).newCache =
          (checkCache Lr input c).1 := by
  constructor
  · exact countP_le_one_of_keys_nodup L i (runOps ops) (runOps_keys_nodup ops)
  · intro conv Lr input c p h
    unfold checkCacheOrConvert
    rw [h]
    rfl

/-- C5 counterexample: in unsafe mode, when the generated script raises,
`_run_sketch` propagates the exception without reaching the
`del user_ns[...]` line (which runs after the `with` block, not in a
`finally`), so the `_py5_user_ns` binding is still present in the caller's
namespace when control returns. -/
theorem runSketch_userns_leak_counterexample :
    (runSketch "P2D" "py5.rect(10, 10, 50, 50)" 100 100 false false
        (fun _ => false) (fun n => (n, ExecOutcome.raised))).finalNs py5UserNsKey
      = true ∧
    (runSketch "P2D" "py5.rect(10, 10, 50, 50)" 100 100 false false
        (fun _ => false) (fun n => (n, ExecOutcome.raised))).raised = true := by
  constructor <;> rfl

/-- C5 (amended): in unsafe mode, on the normal-completion exit path of
`_run_sketch` the temporary `_py5_user_ns` binding is removed from the
caller's namespace before control returns (this also covers executed code
that itself unbound the name: the `del` then raises `KeyError`, and the
name is still absent); when script execution raises, the binding is not
removed and leaks. -/
theorem runSketch_userns_removed_on_completion (renderer code : String)
    (width height : Nat) (ns : NS) (ex : NS → NS × ExecOutcome)
    (output : Option String)
    (hex : (ex (nsInsert ns py5UserNsKey)).2 = ExecOutcome.completed output) :
    (runSketch renderer code width height false false ns ex).finalNs py5UserNsKey
      = false := by
  unfold runSketch
  simp only [if_neg (Bool.false_ne_true), Bool.false_eq_true, if_false, hex]
  by_cases hkey : (ex (nsInsert ns py5UserNsKey)).1 py5UserNsKey = true
  · simp [hkey, nsErase]
  · simp only [Bool.not_eq_true] at hkey
    simp [hkey]

/-- Witness for the amended C5 at a concrete namespace and execution
behavior. -/
theorem runSketch_userns_removed_on_completion_witness :
    ((fun n : NS => (n, ExecOutcome.completed (some "output")))
        (nsInsert (fun _ => false) py5UserNsKey)).2
      = ExecOutcome.completed (some "output") ∧
    (runSketch "P2D" "py5.rect(10, 10, 50, 50)" 100 100 false false
        (fun _ => false)
        (fun n => (n, ExecOutcome.completed (some "output")))).finalNs py5UserNsKey
      = false :=
  ⟨rfl,
    runSketch_userns_removed_on_completion "P2D" "py5.rect(10, 10, 50, 50)" 100 100
      (fun _ => false) (fun n => (n, ExecOutcome.completed (some "output")))
      (some "output") rfl⟩

/-- C6: every `_run_sketch` invocation that reaches the execution phase
(no sketch already running) creates the temporary directory and the
directory no longer exists when the call returns, whether execution
completed normally or raised: the `with tempfile.TemporaryDirectory()`
context manager removes it on both exits. -/
theorem runSketch_tempdir_removed (renderer code : String) (width height : Nat)
    (safeExec : Bool) (ns : NS) (ex : NS → NS × ExecOutcome) :
    (runSketch renderer code width height false safeExec ns ex).tempdirCreated
        = true ∧
    (runSketch renderer code width height false safeExec ns ex).tempdirFinal
        = false := by
  cases safeExec with
  | true =>
      cases h2 : (ex ns).2 with
      | completed out => exact ⟨by simp [runSketch, h2], by simp [runSketch, h2]⟩
      | raised => exact ⟨by simp [runSketch, h2], by simp [runSketch, h2]⟩
  | false =>
      cases h2 : (ex (nsInsert ns py5UserNsKey)).2 with
      | completed out =>
          by_cases hkey : (ex (nsInsert ns py5UserNsKey)).1 py5UserNsKey = true
          · exact ⟨by simp [runSketch, h2, hkey], by simp [runSketch, h2, hkey]⟩
          · rw [Bool.not_eq_true] at hkey
            exact ⟨by simp [runSketch, h2, hkey], by simp [runSketch, h2, hkey]⟩
      | raised => exact ⟨by simp [runSketch, h2], by simp [runSketch, h2]⟩

/-- C9: when a sketch is already running, `_run_sketch` prints the specific
abort message and returns `None` without raising, without executing the
generated script, and without creating the temporary directory or any
output file — and the magic commands' truthiness guard on the returned
value then performs no post-processing. -/
theorem runSketch_already_running_aborts (renderer code : String)
    (width height : Nat) (safeExec : Bool) (ns : NS)
    (ex : NS → NS × ExecOutcome) :
    (runSketch renderer code width height true safeExec ns ex).printed
        = some alreadyRunningMsg ∧
    (runSketch renderer code width height true safeExec ns ex).result = none ∧
    (runSketch renderer code width height true safeExec ns ex).raised = false ∧
    (runSketch renderer code width height true safeExec ns ex).execCalled = false ∧
    (runSketch renderer code width height true safeExec ns ex).tempdirCreated
        = false ∧
    magicPostProcesses
        (runSketch renderer code width height true safeExec ns ex).result = false := by
  exact ⟨rfl, rfl, rfl, rfl, rfl, rfl⟩

/-- C10: on the already-running abort path, the caller's namespace is
returned completely unchanged for every renderer, cell text, dimensions
and safety flag: the abort check precedes the installation of the
`_py5_user_ns` binding. -/
theorem runSketch_already_running_preserves_ns (renderer code : String)
    (width height : Nat) (safeExec : Bool) (ns : NS)
    (ex : NS → NS × ExecOutcome) :
    (runSketch renderer code width height true safeExec ns ex).finalNs = ns := rfl

/-- C7: for a string source matching the HTTP(S) URL pattern, `load_json`
returns the parsed response body when the status is 200; for any other
status it fails with a `RuntimeError` whose message contains the HTTP
reason phrase; and in both cases the outcome is independent of the
filesystem and of the sketch path (no filesystem access). -/
theorem loadJson_url_behavior {α : Type} (net : String → HttpResponse α)
    (fs : String → Option String) (cwd : String) (parse : String → α)
    (source : String) (hurl : isUrlSource source = true) :
    ((net source).status = 200 →
      loadJson net fs cwd parse source = Except.ok (net source).jsonBody) ∧
    ((net source).status ≠ 200 →
      ∃ pre : String, loadJson net fs cwd parse source =
        Except.error (pre ++ (net source).reason)) ∧
    (∀ (fs2 : String → Option String) (cwd2 : String),
      loadJson net fs2 cwd2 parse source = loadJson net fs cwd parse source) := by
  refine ⟨?_, ?_, ?_⟩
  · intro h
    simp [loadJson, hurl, h]
  · intro h
    refine ⟨"Unable to download JSON URL: ", ?_⟩
    simp [loadJson, hurl, h]
  · intro fs2 cwd2
    simp [loadJson, hurl]

/-- Witness for C7 at a concrete URL source and a 404 response. -/
theorem loadJson_url_behavior_witness :
    isUrlSource "http://example.com/data.json" = true ∧
    (((fun _ : String => (⟨404, "Not Found", 0⟩ : HttpResponse Nat))
          "http://example.com/data.json").status = 200 →
      loadJson (fun _ => (⟨404, "Not Found", 0⟩ : HttpResponse Nat)) (fun _ => none)
          "/sk" (fun _ => 0) "http://example.com/data.json" =
        Except.ok ((fun _ : String => (⟨404, "Not Found", 0⟩ : HttpResponse Nat))
          "http://example.com/data.json").jsonBody) ∧
    (((fun _ : String => (⟨404, "Not Found", 0⟩ : HttpResponse Nat))
          "http://example.com/data.json").status ≠ 200 →
      ∃ pre : String,
        loadJson (fun _ => (⟨404, "Not Found", 0⟩ : HttpResponse Nat)) (fun _ => none)
            "/sk" (fun _ => 0) "http://example.com/data.json" =
          Except.error (pre ++ ((fun _ : String =>
            (⟨404, "Not Found", 0⟩ : HttpResponse Nat))
              "http://example.com/data.json").reason)) ∧
    ∀ (fs2 : String → Option String) (cwd2 : String),
      loadJson (fun _ => (⟨404, "Not Found", 0⟩ : HttpResponse Nat)) fs2 cwd2
          (fun _ => 0) "http://example.com/data.json" =
        loadJson (fun _ => (⟨404, "Not Found", 0⟩ : HttpResponse Nat)) (fun _ => none)
          "/sk" (fun _ => 0) "http://example.com/data.json" :=
  ⟨by decide,
    loadJson_url_behavior (fun _ => (⟨404, "Not Found", 0⟩ : HttpResponse Nat))
      (fun _ => none) "/sk" (fun _ => 0) "http://example.com/data.json" (by decide)⟩

/-- C8: for a non-URL source, a relative path is resolved first against
`<sketch_path>/data/<source>` when that path exists, otherwise against
`<sketch_path>/<source>`; when the resolved path exists its contents are
parsed and returned, and when it does not, `load_json` fails with a
`RuntimeError` naming the missing filename. -/
theorem loadJson_file_behavior {α : Type} (net : String → HttpResponse α)
    (fs : String → Option String) (cwd : String) (parse : String → α)
    (source : String) (hurl : isUrlSource source = false) :
    (isAbsolutePath source = false →
      (∀ contents : String,
          fs (pathJoin (pathJoin cwd "data") source) = some contents →
          loadJson net fs cwd parse source = Except.ok (parse contents)) ∧
      (fs (pathJoin (pathJoin cwd "data") source) = none →
        ∀ contents : String, fs (pathJoin cwd source) = some contents →
          loadJson net fs cwd parse source = Except.ok (parse contents)) ∧
      (fs (pathJoin (pathJoin cwd "data") source) = none →
        fs (pathJoin cwd source) = none →
        loadJson net fs cwd parse source =
          Except.error ("Unable to find JSON file " ++ source))) ∧
    (isAbsolutePath source = true →
      (∀ contents : String, fs source = some contents →
          loadJson net fs cwd parse source = Except.ok (parse contents)) ∧
      (fs source = none →
        loadJson net fs cwd parse source =
          Except.error ("Unable to find JSON file " ++ source))) := by
  constructor
  · intro habs
    refine ⟨?_, ?_, ?_⟩
    · intro contents hdata
      simp [loadJson, hurl, habs, hdata]
    · intro hdata contents hplain
      simp [loadJson, hurl, habs, hdata, hplain]
    · intro hdata hplain
      simp [loadJson, hurl, habs, hdata, hplain]
  · intro habs
    constructor
    · intro contents habsfs
      simp [loadJson, hurl, habs, habsfs]
    · intro habsfs
      simp [loadJson, hurl, habs, habsfs]

/-- Witness for C8 at a concrete sketch path and data-directory file. -/
theorem loadJson_file_behavior_witness :
    isUrlSource "a.json" = false ∧
    ((isAbsolutePath "a.json" = false →
      (∀ contents : String,
          (fun p : String => if p = "/sk/data/a.json" then some "[1, 2]" else none)
              (pathJoin (pathJoin "/sk" "data") "a.json") = some contents →
          loadJson (fun _ => (⟨200, "OK", ""⟩ : HttpResponse String))
              (fun p => if p = "/sk/data/a.json" then some "[1, 2]" else none)
              "/sk" (fun s => s) "a.json" = Except.ok ((fun s : String => s) contents)) ∧
      ((fun p : String => if p = "/sk/data/a.json" then some "[1, 2]" else none)
          (pathJoin (pathJoin "/sk" "data") "a.json") = none →
        ∀ contents : String,
          (fun p : String => if p = "/sk/data/a.json" then some "[1, 2]" else none)
              (pathJoin "/sk" "a.json") = some contents →
          loadJson (fun _ => (⟨200, "OK", ""⟩ : HttpResponse String))
              (fun p => if p = "/sk/data/a.json" then some "[1, 2]" else none)
              "/sk" (fun s => s) "a.json" = Except.ok ((fun s : String => s) contents)) ∧
      ((fun p : String => if p = "/sk/data/a.json" then some "[1, 2]" else none)
          (pathJoin (pathJoin "/sk" "data") "a.json") = none →
        (fun p : String => if p = "/sk/data/a.json" then some "[1, 2]" else none)
            (pathJoin "/sk" "a.json") = none →
        loadJson (fun _ => (⟨200, "OK", ""⟩ : HttpResponse String))
            (fun p => if p = "/sk/data/a.json" then some "[1, 2]" else none)
            "/sk" (fun s => s) "a.json" =
          Except.error ("Unable to find JSON file " ++ "a.json"))) ∧
    (isAbsolutePath "a.json" = true →
      (∀ contents : String,
          (fun p : String => if p = "/sk/data/a.json" then some "[1, 2]" else none)
              "a.json" = some contents →
          loadJson (fun _ => (⟨200, "OK", ""⟩ : HttpResponse String))
              (fun p => if p = "/sk/data/a.json" then some "[1, 2]" else none)
              "/sk" (fun s => s) "a.json" = Except.ok ((fun s : String => s) contents)) ∧
      ((fun p : String => if p = "/sk/data/a.json" then some "[1, 2]" else none)
          "a.json" = none →
        loadJson (fun _ => (⟨200, "OK", ""⟩ : HttpResponse String))
            (fun p => if p = "/sk/data/a.json" then some "[1, 2]" else none)
            "/sk" (fun s => s) "a.json" =
          Except.error ("Unable to find JSON file " ++ "a.json")))) :=
  ⟨by decide,
    loadJson_file_behavior (fun _ => (⟨200, "OK", ""⟩ : HttpResponse String))
      (fun p => if p = "/sk/data/a.json" then some "[1, 2]" else none)
      "/sk" (fun s => s) "a.json" (by decide)⟩

end Py5
